import Mathlib

/-!
Shallow embedding of the inventory HTTP service (`src/main.js`).

The service keeps inventory rows in a relational table
`inventory(id, inventory_name, description, photo_filename)` and photo blobs
as files in a cache directory. We model the table as a list of rows (in
insertion order, which is ascending-id order under the autoincrement
invariant), the cache directory as an association list from filename to file
content, and each Express handler as a pure function from the request data
and the current state to an HTTP response and the next state. Database and
filesystem errors are external nondeterminism; where a claim is about an
error path (the UPDATE failure inside `PUT /inventory/:id/photo`), the
failure is injected through an explicit boolean parameter.
-/

namespace Inventory

/-- A JavaScript value as it can appear in a parsed JSON request-body field:
string, number, boolean, null, or (collapsed, since no handler looks inside
one) an object. An absent field is modelled as `Option.none` outside. -/
inductive JsVal where
  | vStr (s : String)
  | vNum (n : Int)
  | vBool (b : Bool)
  | vNull
  | vObj
deriving Repr, DecidableEq

/-- Embeds the JS expression `typeof v === 'string' ? v : null` applied to a
possibly-absent body field (`main.js` lines 250-251). -/
def jsParamString : Option JsVal → Option String
  | some (.vStr s) => some s
  | _ => none

/-- JS `parseInt(s, 10)`: skip leading whitespace, an optional sign, then read
the longest decimal-digit prefix; the result is `none` exactly when no digit
is found, which is the `Number.isNaN` case in the handlers. -/
def parseIntJs (s : String) : Option Int :=
  let cs := s.data.dropWhile Char.isWhitespace
  let signAndRest : Int × List Char :=
    match cs with
    | '-' :: t => (-1, t)
    | '+' :: t => (1, t)
    | t => (1, t)
  let ds := signAndRest.2.takeWhile Char.isDigit
  if ds = [] then none
  else
    some (signAndRest.1 *
      Int.ofNat (ds.foldl (fun acc c => acc * 10 + (c.toNat - Char.toNat '0')) 0))

/-- JS truthiness of a nullable string column (`photo_filename`): `null` and
the empty string are falsy. Returns the string when truthy. -/
def strTruthy : Option String → Option String
  | some s => if s = "" then none else some s
  | none => none

/-- JS `String.prototype.trim`: strip leading and trailing whitespace.
(An executable model; the library `String.trim` does not reduce in the
kernel.) -/
def jsTrim (s : String) : String :=
  ⟨((s.data.dropWhile Char.isWhitespace).reverse.dropWhile Char.isWhitespace).reverse⟩

/-- A persisted row of the `inventory` table. -/
structure Item where
  id : Int
  inventory_name : String
  description : String
  photo_filename : Option String
deriving Repr, DecidableEq

/-- The derived photo path used by `itemToDto` and by the search page. -/
def photoUrlOf (id : Int) : String :=
  "/inventory/" ++ toString id ++ "/photo"

/-- The wire DTO shape returned by the JSON endpoints. -/
structure Dto where
  id : Int
  inventory_name : String
  description : String
  photoUrl : Option String
deriving Repr, DecidableEq

/-- Embeds `itemToDto` (`main.js` lines 47-56): rows coming from the database
only carry `photo_filename`, so `item.photoFilename || item.photo_filename ||
null` reduces to the truthiness of `photo_filename`. -/
def itemToDto (item : Item) : Dto :=
  { id := item.id
    inventory_name := item.inventory_name
    description := item.description
    photoUrl :=
      match strTruthy item.photo_filename with
      | some _ => some (photoUrlOf item.id)
      | none => none }

/-- Response bodies the handlers can produce. -/
inductive RespBody where
  | jsonErr (msg : String)
  | dto (d : Dto)
  | dtoList (ds : List Dto)
  | file (content : String)
  | text (s : String)
  | html (s : String)
deriving Repr, DecidableEq

/-- An HTTP response: status code and body. -/
structure HttpResp where
  status : Nat
  body : RespBody
deriving Repr, DecidableEq

/-- The cache directory: an association list from filename to file content. -/
abbrev Cache := List (String × String)

/-- `fs.readFileSync`-like lookup; `none` when the file is absent. -/
def fsRead (c : Cache) (name : String) : Option String :=
  (c.find? (fun p => p.1 == name)).map (fun p => p.2)

/-- `fs.existsSync`. -/
def fsExists (c : Cache) (name : String) : Bool :=
  (fsRead c name).isSome

/-- `fs.unlink` (best-effort delete). -/
def fsUnlink (c : Cache) (name : String) : Cache :=
  c.filter (fun p => p.1 != name)

/-- Writing a fresh file into the cache directory (what multer does with an
uploaded file before the handler body runs). -/
def fsSave (c : Cache) (name content : String) : Cache :=
  (name, content) :: c

/-- The whole observable state: the `inventory` table (in insertion order),
the autoincrement counter, and the cache directory. -/
structure SState where
  db : List Item
  nextId : Int
  cache : Cache
deriving Repr, DecidableEq

/-- `SELECT ... FROM inventory WHERE id = ?` (first matching row). -/
def dbFind (db : List Item) (id : Int) : Option Item :=
  db.find? (fun it => it.id == id)

/-- Core of `GET /inventory/:id` after the id has been parsed
(`main.js` lines 171-186). -/
def getByIdCore (st : SState) (id : Int) : HttpResp :=
  match dbFind st.db id with
  | none => ⟨404, .jsonErr "not found"⟩
  | some it => ⟨200, .dto (itemToDto it)⟩

/-- `GET /inventory/:id` (`main.js` lines 165-187). -/
def handleGetById (st : SState) (idStr : String) : HttpResp :=
  match parseIntJs idStr with
  | none => ⟨400, .jsonErr "invalid id"⟩
  | some id => getByIdCore st id

/-- `GET /inventory` (`main.js` lines 131-142). -/
def handleList (st : SState) : HttpResp :=
  ⟨200, .dtoList (st.db.map itemToDto)⟩

/-- The per-row effect of the COALESCE update statement of
`PUT /inventory/:id` (`main.js` lines 244-253). -/
def applyMeta (nameParam descParam : Option String) (id : Int) (it : Item) : Item :=
  if it.id == id then
    { it with
      inventory_name := nameParam.getD it.inventory_name
      description := descParam.getD it.description }
  else it

/-- `PUT /inventory/:id` (`main.js` lines 221-277): parse id, pre-check
existence, update with `COALESCE(?, column)` where a non-string body field is
passed as SQL NULL, then re-select and return the fresh DTO. The re-select
`rows[0]` cannot fail in this sequential model; the unreachable branch keeps
the shape of the callback chain. -/
def handleUpdateMeta (st : SState) (idStr : String)
    (nameVal descVal : Option JsVal) : HttpResp × SState :=
  match parseIntJs idStr with
  | none => (⟨400, .jsonErr "invalid id"⟩, st)
  | some id =>
    match dbFind st.db id with
    | none => (⟨404, .jsonErr "not found"⟩, st)
    | some _ =>
      let nameParam := jsParamString nameVal
      let descParam := jsParamString descVal
      let db2 := st.db.map (applyMeta nameParam descParam id)
      let st2 : SState := { st with db := db2 }
      let resp : HttpResp :=
        match dbFind db2 id with
        | some it2 => ⟨200, .dto (itemToDto it2)⟩
        | none => ⟨500, .jsonErr "internal error"⟩
      (resp, st2)

/-- Core of `GET /inventory/:id/photo` after the id has been parsed
(`main.js` lines 307-330): 404 "photo not found" when the row is absent, when
`photo_filename` is falsy, or when the referenced file is missing; otherwise
stream the file. -/
def getPhotoCore (st : SState) (id : Int) : HttpResp :=
  match dbFind st.db id with
  | none => ⟨404, .jsonErr "photo not found"⟩
  | some item =>
    match strTruthy item.photo_filename with
    | none => ⟨404, .jsonErr "photo not found"⟩
    | some fn =>
      match fsRead st.cache fn with
      | none => ⟨404, .jsonErr "photo not found"⟩
      | some content => ⟨200, .file content⟩

/-- `GET /inventory/:id/photo` (`main.js` lines 301-331). -/
def handleGetPhoto (st : SState) (idStr : String) : HttpResp :=
  match parseIntJs idStr with
  | none => ⟨400, .jsonErr "invalid id"⟩
  | some id => getPhotoCore st id

/-- `PUT /inventory/:id/photo` (`main.js` lines 364-432). `upload` is the
multipart file: multer stores it in the cache under a generated name before
the handler body runs. `updateFails` injects the failure of the
`UPDATE inventory SET photo_filename = ...` statement (the `err2` branch);
`false` is the normal path. The handler deletes the old blob (when the row
has one and the file exists) before issuing the UPDATE. -/
def handleReplacePhoto (st : SState) (idStr : String)
    (upload : Option (String × String)) (updateFails : Bool) : HttpResp × SState :=
  let cache1 :=
    match upload with
    | some (n, content) => fsSave st.cache n content
    | none => st.cache
  let st1 : SState := { st with cache := cache1 }
  match parseIntJs idStr with
  | none =>
    let st2 : SState :=
      match upload with
      | some (n, _) => { st1 with cache := fsUnlink st1.cache n }
      | none => st1
    (⟨400, .jsonErr "invalid id"⟩, st2)
  | some id =>
    match upload with
    | none => (⟨400, .jsonErr "photo file is required"⟩, st1)
    | some (newName, _) =>
      match dbFind st1.db id with
      | none =>
        (⟨404, .jsonErr "not found"⟩, { st1 with cache := fsUnlink st1.cache newName })
      | some item =>
        let cache2 :=
          match strTruthy item.photo_filename with
          | some oldName =>
            if fsExists st1.cache oldName then fsUnlink st1.cache oldName
            else st1.cache
          | none => st1.cache
        if updateFails then
          (⟨500, .jsonErr "internal error"⟩, { st1 with cache := fsUnlink cache2 newName })
        else
          let db2 := st1.db.map (fun it =>
            if it.id == id then { it with photo_filename := some newName } else it)
          let st2 : SState := { st1 with db := db2, cache := cache2 }
          let resp : HttpResp :=
            match dbFind db2 id with
            | some it2 => ⟨200, .dto (itemToDto it2)⟩
            | none => ⟨500, .jsonErr "internal error"⟩
          (resp, st2)

/-- `POST /register` (`main.js` lines 553-592). `name`/`descr` are the
multipart text fields (strings when present), `upload` the optional photo
file, stored by multer before the handler body runs. A blank name (absent,
empty, or whitespace-only) discards the uploaded file and fails 400;
otherwise the trimmed name is inserted together with `descr || ''` and the
generated filename, and the freshly selected row is returned as a 201 DTO. -/
def handleRegister (st : SState) (name : Option String) (descr : Option String)
    (upload : Option (String × String)) : HttpResp × SState :=
  let cache1 :=
    match upload with
    | some (n, content) => fsSave st.cache n content
    | none => st.cache
  let st1 : SState := { st with cache := cache1 }
  let blank :=
    match name with
    | none => true
    | some s => (jsTrim s) == ""
  if blank then
    let st2 : SState :=
      match upload with
      | some (n, _) => { st1 with cache := fsUnlink st1.cache n }
      | none => st1
    (⟨400, .jsonErr "inventory_name is required"⟩, st2)
  else
    match name with
    | none => (⟨400, .jsonErr "inventory_name is required"⟩, st1)
    | some s =>
      let desc := descr.getD ""
      let photoFilename := upload.map (fun p => p.1)
      let newItem : Item := ⟨st1.nextId, (jsTrim s), desc, photoFilename⟩
      let db2 := st1.db ++ [newItem]
      let st2 : SState := { st1 with db := db2, nextId := st1.nextId + 1 }
      let resp : HttpResp :=
        match dbFind db2 st1.nextId with
        | some it => ⟨201, .dto (itemToDto it)⟩
        | none => ⟨500, .jsonErr "internal error"⟩
      (resp, st2)

/-- `DELETE /inventory/:id` (`main.js` lines 615-660): select the row, delete
it, best-effort delete its blob, answer with the pre-delete DTO. -/
def handleDelete (st : SState) (idStr : String) : HttpResp × SState :=
  match parseIntJs idStr with
  | none => (⟨400, .jsonErr "invalid id"⟩, st)
  | some id =>
    match dbFind st.db id with
    | none => (⟨404, .jsonErr "not found"⟩, st)
    | some item =>
      let db2 := st.db.filter (fun it => it.id != id)
      let cache2 :=
        match strTruthy item.photo_filename with
        | some fn => if fsExists st.cache fn then fsUnlink st.cache fn else st.cache
        | none => st.cache
      (⟨200, .dto (itemToDto item)⟩, { st with db := db2, cache := cache2 })

/-- The HTML page built by `POST /search` for a found item
(`main.js` lines 479-517), with the exact interpolation structure of the
template literal: id, name and description are embedded verbatim. `hasPhoto`
is `req.body.has_photo !== undefined`. -/
def searchRenderHtml (item : Item) (hasPhoto : Bool) : String :=
  let description0 := item.description
  let withPhoto := hasPhoto && (strTruthy item.photo_filename).isSome
  let url := photoUrlOf item.id
  let description :=
    if withPhoto then
      (if description0 == "" then "" else description0 ++ "<br>")
        ++ "Photo link: <a href=\"" ++ url ++ "\">" ++ url ++ "</a>"
    else description0
  let photoBlock :=
    if withPhoto then
      "\n          <p>\n            <img src=\"" ++ url
        ++ "\"\n                 alt=\"photo of " ++ item.inventory_name
        ++ "\"\n                 style=\"max-width:300px;\">\n          </p>\n        "
    else ""
  "\n        <!DOCTYPE html>\n        <html>\n        <head>\n          <meta charset=\"utf-8\">\n          <title>Search result</title>\n        </head>\n        <body>\n          <h1>Search result</h1>\n          <p><strong>ID:</strong> "
    ++ toString item.id
    ++ "</p>\n          <p><strong>Name:</strong> "
    ++ item.inventory_name
    ++ "</p>\n          <p><strong>Description:</strong><br>"
    ++ description
    ++ "</p>\n          "
    ++ photoBlock
    ++ "\n          <p><a href=\"/SearchForm.html\">Back to search</a></p>\n        </body>\n        </html>\n      "

/-- `POST /search` (`main.js` lines 460-520). `idVal` is the form field
`id` (absent fields parse to NaN), `hasPhoto` the presence of `has_photo`. -/
def handleSearch (st : SState) (idVal : Option String) (hasPhoto : Bool) : HttpResp :=
  match idVal.bind parseIntJs with
  | none => ⟨400, .text "Invalid id"⟩
  | some id =>
    match dbFind st.db id with
    | none => ⟨404, .text "Item not found"⟩
    | some item => ⟨200, .html (searchRenderHtml item hasPhoto)⟩

/-- HTTP methods relevant to the route guards. -/
inductive Method where
  | get | post | put | del | patch | head | options
deriving Repr, DecidableEq

/-- The recognized paths guarded by the `app.all` method filters
(`main.js` lines 87-106). The id segment is an arbitrary string. -/
inductive RecognizedPath where
  | register
  | inventory
  | inventoryId (id : String)
  | inventoryIdPhoto (id : String)
  | search
deriving Repr, DecidableEq

/-- The methods each guard lets through to the route handlers. -/
def allowedMethods : RecognizedPath → List Method
  | .register => [.post]
  | .inventory => [.get]
  | .inventoryId _ => [.get, .put, .del]
  | .inventoryIdPhoto _ => [.get, .put]
  | .search => [.post]

/-- The `app.all` guard chain: `some resp` means the guard answered 405
(`res.sendStatus(405)` sends the text "Method Not Allowed") without calling
`next()`; `none` means the request reaches the route handlers. -/
def methodGuard (p : RecognizedPath) (m : Method) : Option HttpResp :=
  if m ∈ allowedMethods p then none
  else some ⟨405, .text "Method Not Allowed"⟩

/-- HTML-escaping of a text fragment (the escaping the spec requires before
embedding item fields in markup). -/
def htmlEscape (s : String) : String :=
  s.data.foldr
    (fun c acc =>
      (match c with
       | '&' => "&amp;"
       | '<' => "&lt;"
       | '>' => "&gt;"
       | '"' => "&quot;"
       | _ => String.singleton c) ++ acc)
    ""

/-- The rendering the spec demands: the same search-result template with every
item-derived field HTML-escaped before embedding. Stated from the spec's
words for comparison with `searchRenderHtml`; it is not what the code does. -/
def searchRenderHtmlEscaped (item : Item) (hasPhoto : Bool) : String :=
  let description0 := htmlEscape item.description
  let withPhoto := hasPhoto && (strTruthy item.photo_filename).isSome
  let url := photoUrlOf item.id
  let description :=
    if withPhoto then
      (if description0 == "" then "" else description0 ++ "<br>")
        ++ "Photo link: <a href=\"" ++ url ++ "\">" ++ url ++ "</a>"
    else description0
  let photoBlock :=
    if withPhoto then
      "\n          <p>\n            <img src=\"" ++ url
        ++ "\"\n                 alt=\"photo of " ++ htmlEscape item.inventory_name
        ++ "\"\n                 style=\"max-width:300px;\">\n          </p>\n        "
    else ""
  "\n        <!DOCTYPE html>\n        <html>\n        <head>\n          <meta charset=\"utf-8\">\n          <title>Search result</title>\n        </head>\n        <body>\n          <h1>Search result</h1>\n          <p><strong>ID:</strong> "
    ++ toString (htmlEscape (toString item.id))
    ++ "</p>\n          <p><strong>Name:</strong> "
    ++ htmlEscape item.inventory_name
    ++ "</p>\n          <p><strong>Description:</strong><br>"
    ++ description
    ++ "</p>\n          "
    ++ photoBlock
    ++ "\n          <p><a href=\"/SearchForm.html\">Back to search</a></p>\n        </body>\n        </html>\n      "

/-- A decimal-numeric string: non-empty and all digits (the plain reading of
"numeric string" in the spec's id-validation sentence). -/
def isNumericString (s : String) : Bool :=
  !s.data.isEmpty && s.data.all Char.isDigit

/-- The invariant claimed for reachable states: every persisted row has a
non-empty `inventory_name`. -/
def invNamesNonEmpty (st : SState) : Bool :=
  st.db.all (fun it => it.inventory_name != "")

/-! ### Helper lemmas about the cache model -/

theorem fsRead_unlink_self (c : Cache) (n : String) : fsRead (fsUnlink c n) n = none := by
  unfold fsRead fsUnlink
  rw [Option.map_eq_none', List.find?_eq_none]
  intro p hp
  have := (List.mem_filter.mp hp).2
  simpa [bne_iff_ne] using this

theorem fsExists_unlink_self (c : Cache) (n : String) :
    fsExists (fsUnlink c n) n = false := by
  unfold fsExists
  rw [fsRead_unlink_self]
  rfl

theorem fsRead_unlink_of_none (c : Cache) (m n : String) (h : fsRead c n = none) :
    fsRead (fsUnlink c m) n = none := by
  unfold fsRead fsUnlink at *
  rw [Option.map_eq_none', List.find?_eq_none]
  intro p hp
  have hmem := (List.mem_filter.mp hp).1
  have h' := (Option.map_eq_none'.mp h)
  exact List.find?_eq_none.mp h' p hmem

theorem fsExists_save (c : Cache) (n content m : String) :
    fsExists (fsSave c n content) m = ((n == m) || fsExists c m) := by
  unfold fsExists fsRead fsSave
  cases h : (n == m) with
  | true => simp [List.find?, h]
  | false => simp [List.find?, h]

theorem fsUnlink_of_fresh (c : Cache) (n : String) (h : fsExists c n = false) :
    fsUnlink c n = c := by
  unfold fsUnlink
  apply List.filter_eq_self.mpr
  intro p hp
  unfold fsExists fsRead at h
  have hnone : c.find? (fun q => q.1 == n) = none := by
    cases hf : c.find? (fun q => q.1 == n) with
    | none => rfl
    | some q => rw [hf] at h; simp at h
  have := List.find?_eq_none.mp hnone p hp
  simpa [bne_iff_ne] using this

end Inventory

namespace Inventory

/-! ### C1: id validation on id-bearing routes -/

/-- Empty store used by the C1 counterexample. -/
def c1State : SState := ⟨[], 1, []⟩

/-- C1 counterexample: "12abc" is not a numeric string, yet
`GET /inventory/12abc` is not rejected with 400; `parseInt` coerces it to 12
and the store lookup answers 404 "not found". -/
theorem c1_nonNumericId_reaches_lookup :
    isNumericString "12abc" = false ∧
    handleGetById c1State "12abc" = ⟨404, .jsonErr "not found"⟩ := by
  constructor
  · decide
  · decide

/-- C1 (amended): an id string on which JS `parseInt` yields NaN (no decimal
digit after optional whitespace and sign) is rejected with 400 "invalid id"
on every id-bearing route before any store lookup, and the state is
untouched; ids with a numeric prefix are instead coerced to that prefix. -/
theorem c1_nan_id_rejected (idStr : String) (h : parseIntJs idStr = none)
    (st : SState) (nameVal descVal : Option JsVal)
    (upload : Option (String × String)) (uf : Bool) :
    handleGetById st idStr = ⟨400, .jsonErr "invalid id"⟩ ∧
    handleUpdateMeta st idStr nameVal descVal = (⟨400, .jsonErr "invalid id"⟩, st) ∧
    handleDelete st idStr = (⟨400, .jsonErr "invalid id"⟩, st) ∧
    handleGetPhoto st idStr = ⟨400, .jsonErr "invalid id"⟩ ∧
    (handleReplacePhoto st idStr upload uf).1 = ⟨400, .jsonErr "invalid id"⟩ ∧
    (handleReplacePhoto st idStr upload uf).2.db = st.db ∧
    handleSearch st (some idStr) false = ⟨400, .text "Invalid id"⟩ := by
  refine ⟨?_, ?_, ?_, ?_, ?_, ?_, ?_⟩ <;>
    rcases upload with _ | ⟨n, content⟩ <;>
      simp [handleGetById, handleUpdateMeta, handleDelete, handleGetPhoto,
        handleReplacePhoto, handleSearch, h]

/-- C1 amended-theorem witness at the concrete id "abc" and the empty store. -/
theorem c1_nan_id_rejected_witness :
    parseIntJs "abc" = none ∧
    handleGetById ⟨[], 1, []⟩ "abc" = ⟨400, .jsonErr "invalid id"⟩ :=
  ⟨by decide, (c1_nan_id_rejected "abc" (by decide) ⟨[], 1, []⟩ none none none false).1⟩

/-! ### C4: HTML escaping in the search page -/

/-- An item whose name carries markup, for the C4 injection theorem. -/
def c4Item : Item := ⟨1, "<img src=x>", "", none⟩

set_option maxRecDepth 8192 in
/-- C4: `searchRenderHtml` does not HTML-escape item-derived fields: the
markup-bearing name of `c4Item` is embedded verbatim in the produced page
(so it injects into the markup), and the output differs from the
spec-mandated escaped rendering of the same item. -/
theorem c4_searchRender_embeds_raw_name :
    (∃ pre post, searchRenderHtml c4Item false = pre ++ "<img src=x>" ++ post) ∧
    searchRenderHtml c4Item false ≠ searchRenderHtmlEscaped c4Item false := by
  constructor
  · refine ⟨"\n        <!DOCTYPE html>\n        <html>\n        <head>\n          <meta charset=\"utf-8\">\n          <title>Search result</title>\n        </head>\n        <body>\n          <h1>Search result</h1>\n          <p><strong>ID:</strong> 1</p>\n          <p><strong>Name:</strong> ",
      "</p>\n          <p><strong>Description:</strong><br></p>\n          \n          <p><a href=\"/SearchForm.html\">Back to search</a></p>\n        </body>\n        </html>\n      ", ?_⟩
    decide
  · decide

/-! ### C5: the three NotFound cases of getPhoto -/

/-- C5: after id parsing, `GET /inventory/:id/photo` answers the one fixed
404 response `"photo not found"` exactly when the row is absent, or the row
has a falsy `photo_filename`, or the referenced blob is missing from the
cache — so the three cases are indistinguishable to the caller. -/
theorem c5_getPhoto_notFound_cases (st : SState) (id : Int) :
    getPhotoCore st id = ⟨404, .jsonErr "photo not found"⟩ ↔
      (dbFind st.db id = none ∨
       (∃ it, dbFind st.db id = some it ∧ strTruthy it.photo_filename = none) ∨
       (∃ it fn, dbFind st.db id = some it ∧ strTruthy it.photo_filename = some fn ∧
         fsRead st.cache fn = none)) := by
  unfold getPhotoCore
  cases h1 : dbFind st.db id with
  | none => simp
  | some it =>
    cases h2 : strTruthy it.photo_filename with
    | none => simp [h2]
    | some fn =>
      cases h3 : fsRead st.cache fn with
      | none => simp [h2, h3]
      | some content => simp [h2, h3]

/-! ### C9: method guards -/

/-- C9: on each recognized path, any method outside the allowed list is
answered by the guard with 405 "Method Not Allowed" (never a 404). -/
theorem c9_disallowed_method_gets_405 (p : RecognizedPath) (m : Method)
    (h : m ∉ allowedMethods p) :
    methodGuard p m = some ⟨405, .text "Method Not Allowed"⟩ := by
  unfold methodGuard
  simp [h]

/-- C9 witness: PATCH on /register is met with the 405 guard response. -/
theorem c9_disallowed_method_gets_405_witness :
    Method.patch ∉ allowedMethods .register ∧
    methodGuard .register .patch = some ⟨405, .text "Method Not Allowed"⟩ :=
  ⟨by decide, c9_disallowed_method_gets_405 .register .patch (by decide)⟩

/-! ### C2: the non-empty-name invariant -/

theorem invNamesNonEmpty_iff (st : SState) :
    invNamesNonEmpty st = true ↔ ∀ it ∈ st.db, it.inventory_name ≠ "" := by
  simp [invNamesNonEmpty, List.all_eq_true, bne_iff_ne]

theorem jsParamString_eq_some (v : Option JsVal) (s : String)
    (h : jsParamString v = some s) : v = some (.vStr s) := by
  cases v with
  | none => simp [jsParamString] at h
  | some w => cases w <;> simp_all [jsParamString]

/-- One-row store used by the C2 counterexample. -/
def c2State : SState := ⟨[⟨1, "Drill", "", none⟩], 2, []⟩

/-- C2 counterexample: starting from a state where every name is non-empty,
`PUT /inventory/1` with body `{"inventory_name": ""}` succeeds (200) and
persists an empty `inventory_name` — updateMetadata does not preserve the
non-empty-name property. -/
theorem c2_updateMeta_empty_name_accepted :
    invNamesNonEmpty c2State = true ∧
    (handleUpdateMeta c2State "1" (some (.vStr "")) none).1.status = 200 ∧
    invNamesNonEmpty (handleUpdateMeta c2State "1" (some (.vStr "")) none).2 = false := by
  refine ⟨by decide, by decide, by decide⟩

/-- C2 (amended): register always preserves (and establishes, for the row it
inserts) the non-empty-name invariant, and so do delete, replacePhoto, and
any updateMetadata whose `inventory_name` body field is not the empty string;
an explicit empty-string name in the update body, however, is written
through, so that one case breaks the invariant. -/
theorem c2_nonempty_name_preserved (st : SState)
    (hInv : invNamesNonEmpty st = true)
    (name descr : Option String) (upload : Option (String × String))
    (idStr : String) (nameVal descVal : Option JsVal) (uf : Bool)
    (hname : ∀ s, nameVal = some (JsVal.vStr s) → s ≠ "") :
    invNamesNonEmpty (handleRegister st name descr upload).2 = true ∧
    invNamesNonEmpty (handleUpdateMeta st idStr nameVal descVal).2 = true ∧
    invNamesNonEmpty (handleDelete st idStr).2 = true ∧
    invNamesNonEmpty (handleReplacePhoto st idStr upload uf).2 = true := by
  have hI := (invNamesNonEmpty_iff st).mp hInv
  refine ⟨?_, ?_, ?_, ?_⟩
  · -- register
    rcases name with _ | s
    · have hdb : (handleRegister st none descr upload).2.db = st.db := by
        rcases upload with _ | ⟨n, content⟩ <;> simp [handleRegister]
      rw [invNamesNonEmpty_iff, hdb]
      exact hI
    · by_cases hb : (jsTrim s) = ""
      · have hb' : ((jsTrim s) == "") = true := by simpa using hb
        have hdb : (handleRegister st (some s) descr upload).2.db = st.db := by
          rcases upload with _ | ⟨n, content⟩ <;> simp [handleRegister, hb']
        rw [invNamesNonEmpty_iff, hdb]
        exact hI
      · have hb' : ((jsTrim s) == "") = false := by simpa using hb
        have hdb : (handleRegister st (some s) descr upload).2.db =
            st.db ++ [⟨st.nextId, (jsTrim s), descr.getD "", upload.map (fun p => p.1)⟩] := by
          rcases upload with _ | ⟨n, content⟩ <;> simp [handleRegister, hb']
        rw [invNamesNonEmpty_iff, hdb]
        intro it hit
        rcases List.mem_append.mp hit with h1 | h2
        · exact hI it h1
        · simp only [List.mem_singleton] at h2
          subst h2
          exact hb
  · -- updateMetadata
    rcases hp : parseIntJs idStr with _ | id
    · have hdb : (handleUpdateMeta st idStr nameVal descVal).2.db = st.db := by
        simp [handleUpdateMeta, hp]
      rw [invNamesNonEmpty_iff, hdb]
      exact hI
    · rcases hf : dbFind st.db id with _ | it0
      · have hdb : (handleUpdateMeta st idStr nameVal descVal).2.db = st.db := by
          simp [handleUpdateMeta, hp, hf]
        rw [invNamesNonEmpty_iff, hdb]
        exact hI
      · have hdb : (handleUpdateMeta st idStr nameVal descVal).2.db =
            st.db.map (applyMeta (jsParamString nameVal) (jsParamString descVal) id) := by
          simp [handleUpdateMeta, hp, hf]
        rw [invNamesNonEmpty_iff, hdb]
        intro it hit
        obtain ⟨a, ha, rfl⟩ := List.mem_map.mp hit
        unfold applyMeta
        by_cases hid : (a.id == id) = true
        · rw [if_pos hid]
          rcases hn : jsParamString nameVal with _ | s2
          · simpa using hI a ha
          · have := hname s2 (jsParamString_eq_some _ _ hn)
            simpa using this
        · rw [if_neg hid]
          exact hI a ha
  · -- delete
    rcases hp : parseIntJs idStr with _ | id
    · have hdb : (handleDelete st idStr).2.db = st.db := by simp [handleDelete, hp]
      rw [invNamesNonEmpty_iff, hdb]
      exact hI
    · rcases hf : dbFind st.db id with _ | it0
      · have hdb : (handleDelete st idStr).2.db = st.db := by simp [handleDelete, hp, hf]
        rw [invNamesNonEmpty_iff, hdb]
        exact hI
      · have hdb : (handleDelete st idStr).2.db = st.db.filter (fun it => it.id != id) := by
          simp [handleDelete, hp, hf]
        rw [invNamesNonEmpty_iff, hdb]
        intro it hit
        exact hI it (List.mem_filter.mp hit).1
  · -- replacePhoto
    rcases hp : parseIntJs idStr with _ | id
    · have hdb : (handleReplacePhoto st idStr upload uf).2.db = st.db := by
        rcases upload with _ | ⟨n, content⟩ <;> simp [handleReplacePhoto, hp]
      rw [invNamesNonEmpty_iff, hdb]
      exact hI
    · rcases upload with _ | ⟨n, content⟩
      · have hdb : (handleReplacePhoto st idStr none uf).2.db = st.db := by
          simp [handleReplacePhoto, hp]
        rw [invNamesNonEmpty_iff, hdb]
        exact hI
      · rcases hf : dbFind st.db id with _ | it0
        · have hdb : (handleReplacePhoto st idStr (some (n, content)) uf).2.db = st.db := by
            simp [handleReplacePhoto, hp, hf]
          rw [invNamesNonEmpty_iff, hdb]
          exact hI
        · cases uf
          · have hdb : (handleReplacePhoto st idStr (some (n, content)) false).2.db =
                st.db.map (fun it =>
                  if it.id == id then { it with photo_filename := some n } else it) := by
              simp [handleReplacePhoto, hp, hf]
            rw [invNamesNonEmpty_iff, hdb]
            intro it hit
            obtain ⟨a, ha, rfl⟩ := List.mem_map.mp hit
            by_cases hid : (a.id == id) = true
            · rw [if_pos hid]
              exact hI a ha
            · rw [if_neg hid]
              exact hI a ha
          · have hdb : (handleReplacePhoto st idStr (some (n, content)) true).2.db = st.db := by
              simp [handleReplacePhoto, hp, hf]
            rw [invNamesNonEmpty_iff, hdb]
            exact hI

/-- C2 amended-theorem witness: a concrete update with a non-empty name keeps
the invariant. -/
theorem c2_nonempty_name_preserved_witness :
    invNamesNonEmpty (handleUpdateMeta c2State "1" (some (.vStr "Saw")) none).2 = true :=
  (c2_nonempty_name_preserved c2State (by decide) none none none "1"
    (some (.vStr "Saw")) none false
    (by intro s h; simp only [Option.some.injEq, JsVal.vStr.injEq] at h; subst h; decide)).2.1

/-! ### C3: old photo across a failed replacePhoto -/

/-- One item with a photo on disk, used by the C3 theorems. -/
def c3State : SState := ⟨[⟨1, "Drill", "", some "old.jpg"⟩], 2, [("old.jpg", "OLD")]⟩

/-- C3 counterexample: when the record UPDATE of `PUT /inventory/1/photo`
fails after the new blob has been saved, the old blob is already gone —
the request answers 500, the row still references "old.jpg", the blob
"old.jpg" no longer exists, and the photo is no longer retrievable. -/
theorem c3_replacePhoto_updateFail_cex :
    (handleReplacePhoto c3State "1" (some ("new.jpg", "NEW")) true).1.status = 500 ∧
    (handleReplacePhoto c3State "1" (some ("new.jpg", "NEW")) true).2.db = c3State.db ∧
    fsExists (handleReplacePhoto c3State "1" (some ("new.jpg", "NEW")) true).2.cache
      "old.jpg" = false ∧
    getPhotoCore (handleReplacePhoto c3State "1" (some ("new.jpg", "NEW")) true).2 1
      = ⟨404, .jsonErr "photo not found"⟩ := by
  refine ⟨by decide, by decide, by decide, by decide⟩

/-- C3 (amended): a failure before the new blob is saved leaves the old photo
intact, but the handler deletes the old blob before issuing the record
UPDATE, not after it; so whenever the UPDATE fails after the new blob was
saved, the response is 500, the row is unchanged (still referencing the old
filename), both the old and the new blob are gone from the cache, and the
photo is no longer retrievable. -/
theorem c3_replacePhoto_updateFail_loses_old (st : SState) (idStr : String) (id : Int)
    (it : Item) (oldName newName content : String)
    (hid : parseIntJs idStr = some id)
    (hfind : dbFind st.db id = some it)
    (hold : strTruthy it.photo_filename = some oldName)
    (holdEx : fsExists st.cache oldName = true) :
    (handleReplacePhoto st idStr (some (newName, content)) true).1
      = ⟨500, .jsonErr "internal error"⟩ ∧
    (handleReplacePhoto st idStr (some (newName, content)) true).2.db = st.db ∧
    fsExists (handleReplacePhoto st idStr (some (newName, content)) true).2.cache
      oldName = false ∧
    fsExists (handleReplacePhoto st idStr (some (newName, content)) true).2.cache
      newName = false ∧
    getPhotoCore (handleReplacePhoto st idStr (some (newName, content)) true).2 id
      = ⟨404, .jsonErr "photo not found"⟩ := by
  have hex1 : fsExists (fsSave st.cache newName content) oldName = true := by
    rw [fsExists_save]
    simp [holdEx]
  have hres : handleReplacePhoto st idStr (some (newName, content)) true =
      (⟨500, .jsonErr "internal error"⟩,
       { st with cache :=
          fsUnlink (fsUnlink (fsSave st.cache newName content) oldName) newName }) := by
    unfold handleReplacePhoto
    rw [hid]
    simp only [hfind, hold, hex1, if_true]
  rw [hres]
  have hro : fsRead (fsUnlink (fsUnlink (fsSave st.cache newName content) oldName)
      newName) oldName = none :=
    fsRead_unlink_of_none _ _ _ (fsRead_unlink_self _ _)
  refine ⟨rfl, rfl, ?_, ?_, ?_⟩
  · simp [fsExists, hro]
  · exact fsExists_unlink_self _ _
  · unfold getPhotoCore
    simp only [hfind, hold, hro]

/-- C3 amended-theorem witness at the concrete one-item state. -/
theorem c3_replacePhoto_updateFail_witness :
    getPhotoCore (handleReplacePhoto c3State "1" (some ("new2.jpg", "NEW")) true).2 1
      = ⟨404, .jsonErr "photo not found"⟩ :=
  (c3_replacePhoto_updateFail_loses_old c3State "1" 1 ⟨1, "Drill", "", some "old.jpg"⟩
    "old.jpg" "new2.jpg" "NEW" (by decide) (by decide) (by decide) (by decide)).2.2.2.2

/-! ### C6 and C10: partial metadata updates -/

theorem applyMeta_id_eq (np dp : Option String) (id : Int) (it : Item) :
    (applyMeta np dp id it).id = it.id := by
  unfold applyMeta
  by_cases h : (it.id == id) = true
  · rw [if_pos h]
  · rw [if_neg h]

theorem dbFind_map_preserving (db : List Item) (f : Item → Item) (id : Int)
    (hf : ∀ it, (f it).id = it.id) :
    dbFind (db.map f) id = (dbFind db id).map f := by
  unfold dbFind
  have hcomp : ((fun it : Item => it.id == id) ∘ f) = (fun it : Item => it.id == id) := by
    funext it
    simp [Function.comp, hf]
  rw [List.find?_map, hcomp]

theorem jsParamString_map_vStr (o : Option String) :
    jsParamString (o.map .vStr) = o := by
  cases o <;> rfl

/-- One-row store used by the C6 witness. -/
def c6State : SState := ⟨[⟨1, "Drill", "Cordless", none⟩], 2, []⟩

/-- C6: updateMetadata on an existing id overwrites exactly the provided
string fields, preserves every omitted field (id and photo_filename
included), and an update providing no fields succeeds with 200, leaves the
state unchanged, and returns a DTO identical to the pre-update DTO. -/
theorem c6_updateMeta_appliesOnlyProvided (st : SState) (idStr : String) (id : Int) (it0 : Item)
    (hp : parseIntJs idStr = some id) (hf : dbFind st.db id = some it0)
    (name? desc? : Option String) :
    handleUpdateMeta st idStr (name?.map .vStr) (desc?.map .vStr) =
      (⟨200, .dto (itemToDto { it0 with
          inventory_name := name?.getD it0.inventory_name
          description := desc?.getD it0.description })⟩,
       { st with db := st.db.map (applyMeta name? desc? id) }) ∧
    handleUpdateMeta st idStr none none = (⟨200, .dto (itemToDto it0)⟩, st) := by
  have hf2 : List.find? (fun it : Item => it.id == id) st.db = some it0 := hf
  have hid : (it0.id == id) = true := by
    have h := List.find?_some hf2
    simpa using h
  have hsel : ∀ np dp : Option String,
      dbFind (st.db.map (applyMeta np dp id)) id = some (applyMeta np dp id it0) := by
    intro np dp
    rw [dbFind_map_preserving st.db _ id (applyMeta_id_eq np dp id), hf]
    rfl
  have hAm : applyMeta name? desc? id it0 = { it0 with
      inventory_name := name?.getD it0.inventory_name
      description := desc?.getD it0.description } := by
    unfold applyMeta
    rw [if_pos hid]
  have hAmNone : ∀ it : Item, applyMeta none none id it = it := by
    intro it
    unfold applyMeta
    by_cases h : (it.id == id) = true
    · rw [if_pos h]
      rfl
    · rw [if_neg h]
  constructor
  · simp only [handleUpdateMeta, hp, hf, jsParamString_map_vStr, hsel name? desc?, hAm]
  · have hmapid : st.db.map (applyMeta none none id) = st.db := by
      have : applyMeta none none id = fun it => it := funext hAmNone
      rw [this, List.map_id']
    have hsel0 : dbFind (st.db.map (applyMeta none none id)) id = some it0 := by
      rw [hsel none none, hAmNone it0]
    simp only [handleUpdateMeta, hp, hf, show jsParamString none = none from rfl,
      hsel0, hmapid]

/-- C6 witness: the empty update on a concrete one-row store answers 200 with
the pre-update DTO and leaves the state unchanged. -/
theorem c6_updateMeta_appliesOnlyProvided_witness :
    handleUpdateMeta c6State "1" none none =
      (⟨200, .dto (itemToDto ⟨1, "Drill", "Cordless", none⟩)⟩, c6State) :=
  (c6_updateMeta_appliesOnlyProvided c6State "1" 1 ⟨1, "Drill", "Cordless", none⟩
    (by decide) (by decide) none none).2

theorem jsParamString_eq_none_of_nonstring (v : Option JsVal)
    (hv : ∀ s, v ≠ some (.vStr s)) : jsParamString v = none := by
  cases v with
  | none => rfl
  | some w =>
    cases w
    case vStr s => exact absurd rfl (hv s)
    all_goals rfl

/-- C10: for an updateMetadata request on an existing id, a body field
(`inventory_name` or `description`) that is present but not a string is
silently treated as omitted: whatever the two body fields hold, the request
answers 200 (never a ValidationError), and each field that is not a provided
string — in particular each present-but-non-string field — keeps its prior
stored value in the updated row. -/
theorem c10_updateMeta_nonstring_ignored (st : SState) (idStr : String) (id : Int)
    (it0 : Item) (nameVal descVal : Option JsVal)
    (hp : parseIntJs idStr = some id) (hf : dbFind st.db id = some it0) :
    (handleUpdateMeta st idStr nameVal descVal).1.status = 200 ∧
    ((∀ s, nameVal ≠ some (.vStr s)) →
      ∃ it1, dbFind (handleUpdateMeta st idStr nameVal descVal).2.db id = some it1 ∧
        it1.inventory_name = it0.inventory_name) ∧
    ((∀ s, descVal ≠ some (.vStr s)) →
      ∃ it1, dbFind (handleUpdateMeta st idStr nameVal descVal).2.db id = some it1 ∧
        it1.description = it0.description) := by
  have hf2 : List.find? (fun it : Item => it.id == id) st.db = some it0 := hf
  have hid : (it0.id == id) = true := by
    have h := List.find?_some hf2
    simpa using h
  have hsel : dbFind (st.db.map
        (applyMeta (jsParamString nameVal) (jsParamString descVal) id)) id
      = some (applyMeta (jsParamString nameVal) (jsParamString descVal) id it0) := by
    rw [dbFind_map_preserving st.db _ id
      (applyMeta_id_eq (jsParamString nameVal) (jsParamString descVal) id), hf]
    rfl
  have hdb : (handleUpdateMeta st idStr nameVal descVal).2.db =
      st.db.map (applyMeta (jsParamString nameVal) (jsParamString descVal) id) := by
    simp [handleUpdateMeta, hp, hf]
  have hAm : applyMeta (jsParamString nameVal) (jsParamString descVal) id it0 =
      { it0 with
        inventory_name := (jsParamString nameVal).getD it0.inventory_name
        description := (jsParamString descVal).getD it0.description } := by
    unfold applyMeta
    rw [if_pos hid]
  refine ⟨?_, ?_, ?_⟩
  · simp only [handleUpdateMeta, hp, hf, hsel]
  · intro hnv
    refine ⟨applyMeta (jsParamString nameVal) (jsParamString descVal) id it0, ?_, ?_⟩
    · rw [hdb, hsel]
    · rw [hAm, jsParamString_eq_none_of_nonstring nameVal hnv]
      rfl
  · intro hdv
    refine ⟨applyMeta (jsParamString nameVal) (jsParamString descVal) id it0, ?_, ?_⟩
    · rw [hdb, hsel]
    · rw [hAm, jsParamString_eq_none_of_nonstring descVal hdv]
      rfl

/-- C10 witness: on a concrete store, an update whose name is the string
"New" but whose description is the boolean false answers 200 and keeps the
prior (empty) description. -/
theorem c10_updateMeta_nonstring_ignored_witness :
    (handleUpdateMeta c2State "1" (some (.vStr "New")) (some (.vBool false))).1.status
      = 200 ∧
    ∃ it1, dbFind (handleUpdateMeta c2State "1" (some (.vStr "New"))
        (some (.vBool false))).2.db 1 = some it1 ∧ it1.description = "" := by
  have h := c10_updateMeta_nonstring_ignored c2State "1" 1 ⟨1, "Drill", "", none⟩
    (some (.vStr "New")) (some (.vBool false)) (by decide) (by decide)
  exact ⟨h.1, h.2.2 (by intro s hs; simp at hs)⟩

/-! ### C7 and C8: register -/

/-- C7: register with a non-blank name answers 201, and getById on the
created id returns the trimmed name, the submitted description (empty string
when omitted), and a photoUrl that is null iff no photo was submitted and
otherwise the derived path, never the raw filename. -/
theorem c7_register_roundtrip (st : SState) (s : String) (descr : Option String)
    (upload : Option (String × String))
    (hname : (jsTrim s) ≠ "")
    (hfree : ∀ it ∈ st.db, it.id ≠ st.nextId)
    (hup : ∀ p : String × String, upload = some p → p.1 ≠ "") :
    (handleRegister st (some s) descr upload).1.status = 201 ∧
    getByIdCore (handleRegister st (some s) descr upload).2 st.nextId =
      ⟨200, .dto ⟨st.nextId, (jsTrim s), descr.getD "",
        upload.map (fun _ => photoUrlOf st.nextId)⟩⟩ := by
  have hb' : ((jsTrim s) == "") = false := by simpa using hname
  have hnone : List.find? (fun it : Item => it.id == st.nextId) st.db = none := by
    rw [List.find?_eq_none]
    intro it hit
    simpa using hfree it hit
  rcases upload with _ | ⟨n, content⟩
  · have hfind2 : dbFind (st.db ++ [⟨st.nextId, (jsTrim s), descr.getD "", none⟩]) st.nextId
        = some ⟨st.nextId, (jsTrim s), descr.getD "", none⟩ := by
      unfold dbFind
      rw [List.find?_append, hnone]
      simp [List.find?]
    refine ⟨?_, ?_⟩
    · simp [handleRegister, hb', hfind2]
    · have hdb : (handleRegister st (some s) descr none).2.db =
          st.db ++ [⟨st.nextId, (jsTrim s), descr.getD "", none⟩] := by
        simp [handleRegister, hb']
      unfold getByIdCore
      rw [hdb, hfind2]
      simp [itemToDto, strTruthy]
  · have hn : n ≠ "" := hup (n, content) rfl
    have hfind2 : dbFind (st.db ++ [⟨st.nextId, (jsTrim s), descr.getD "", some n⟩]) st.nextId
        = some ⟨st.nextId, (jsTrim s), descr.getD "", some n⟩ := by
      unfold dbFind
      rw [List.find?_append, hnone]
      simp [List.find?]
    refine ⟨?_, ?_⟩
    · simp [handleRegister, hb', hfind2]
    · have hdb : (handleRegister st (some s) descr (some (n, content))).2.db =
          st.db ++ [⟨st.nextId, (jsTrim s), descr.getD "", some n⟩] := by
        simp [handleRegister, hb']
      unfold getByIdCore
      rw [hdb, hfind2]
      simp [itemToDto, strTruthy, photoUrlOf, hn]

/-- C7 witness at the empty store: registering " Drill " with description
"Cordless" and no photo, then reading id 1 back. -/
theorem c7_register_roundtrip_witness :
    (handleRegister ⟨[], 1, []⟩ (some " Drill ") (some "Cordless") none).1.status = 201 ∧
    getByIdCore (handleRegister ⟨[], 1, []⟩ (some " Drill ") (some "Cordless") none).2 1 =
      ⟨200, .dto ⟨1, "Drill", "Cordless", none⟩⟩ := by
  have h := c7_register_roundtrip ⟨[], 1, []⟩ " Drill " (some "Cordless") none
    (by decide) (by intro it hit; simp at hit) (by intro p hp; cases hp)
  refine ⟨h.1, ?_⟩
  rw [h.2]
  decide

/-- C8: register with an absent, empty, or whitespace-only name answers 400
"inventory_name is required" and returns the state unchanged: no row is
inserted and the uploaded blob (stored under a fresh name) is removed, so
nothing is left in the cache directory. -/
theorem c8_register_blank_name (st : SState) (name : Option String)
    (descr : Option String) (upload : Option (String × String))
    (hb : ∀ s, name = some s → (jsTrim s) = "")
    (hfresh : ∀ p : String × String, upload = some p → fsExists st.cache p.1 = false) :
    handleRegister st name descr upload =
      (⟨400, .jsonErr "inventory_name is required"⟩, st) := by
  rcases upload with _ | ⟨n, content⟩
  · rcases name with _ | s
    · simp [handleRegister]
    · have hb' : ((jsTrim s) == "") = true := by simpa using hb s rfl
      simp [handleRegister, hb']
  · have hfr : fsExists st.cache n = false := hfresh (n, content) rfl
    have hcache : fsUnlink (fsSave st.cache n content) n = st.cache := by
      have h1 : fsUnlink (fsSave st.cache n content) n = fsUnlink st.cache n := by
        unfold fsUnlink fsSave
        simp
      rw [h1, fsUnlink_of_fresh st.cache n hfr]
    rcases name with _ | s
    · simp [handleRegister, hcache]
    · have hb' : ((jsTrim s) == "") = true := by simpa using hb s rfl
      simp [handleRegister, hb', hcache]

/-- C8 witness: a whitespace-only name with an attached photo is rejected and
the state (rows and cache) is exactly as before. -/
theorem c8_register_blank_name_witness :
    handleRegister ⟨[], 1, []⟩ (some "   ") none (some ("tmpfile", "BYTES")) =
      (⟨400, .jsonErr "inventory_name is required"⟩, ⟨[], 1, []⟩) :=
  c8_register_blank_name ⟨[], 1, []⟩ (some "   ") none (some ("tmpfile", "BYTES"))
    (by intro s h; injection h with h2; rw [← h2]; decide)
    (by intro p h; injection h with h2; rw [← h2]; decide)

end Inventory
